import Mathlib

/-!
Verification of the load-and-resample pipeline of `Project_3.py`.

The program loads the 10,000 most recent power-consumption readings from a
SQLite store (`SELECT * FROM power_consumption ORDER BY Datetime DESC LIMIT
10000`), coerces the `Datetime` column and the seven numeric channels with
`errors="coerce"` (unparseable cells become missing), resamples to hourly
buckets with `resample("H").mean()`, and serves the cached hourly table to a
dashboard that filters it by a date range and appends a derived `Predicted`
column to the filtered copy.

Shallow embedding conventions:
* a timestamp is seconds since an epoch (`Nat`); truncation to the calendar
  hour is division by 3600 and the calendar date is division by 86400, which
  matches timezone-naive calendar arithmetic for hour and day boundaries;
* a raw cell is either a value that the permissive parser accepts or
  malformed text; `errors="coerce"` maps the former to `some` and the latter
  to `none` (NaN / NaT);
* numeric values are rationals (the claims under study are exact-arithmetic
  statements about means);
* `pandas` dataframes are lists of records; `resample("H").mean()` emits one
  row per hour bin from the first to the last hour of the (valid-timestamp)
  index, each bin holding the NaN-skipping mean of the values that fall in
  it, NaN when the bin holds no value.
-/

namespace PowerHouse

/-- A stored `Datetime` cell: either text that parses to a timezone-naive
timestamp (modelled as seconds since an epoch) or malformed text.
`pd.to_datetime(df["Datetime"], errors="coerce")` maps the former to the
timestamp and the latter to `NaT`. -/
inductive RawTimestamp where
  | ts (t : Nat)
  | malformed
deriving DecidableEq

/-- A stored numeric cell: either text that parses to a number or malformed
text. `pd.to_numeric(df[col], errors="coerce")` maps the former to the
number and the latter to `NaN`. -/
inductive RawCell where
  | val (q : ℚ)
  | malformed
deriving DecidableEq

/-- The seven numeric channels of the `power_consumption` table. -/
inductive Channel where
  | Global_active_power
  | Global_reactive_power
  | Voltage
  | Global_intensity
  | Sub_metering_1
  | Sub_metering_2
  | Sub_metering_3
deriving DecidableEq

/-- One stored reading: a raw `Datetime` cell and one raw cell per channel. -/
structure RawReading where
  datetime : RawTimestamp
  cell : Channel → RawCell

/-- One row of the hourly output table: the hour-start timestamp and one
(possibly missing) value per channel. -/
structure HourlyRecord where
  datetime : Nat
  cell : Channel → Option ℚ

/-- `pd.to_datetime(x, errors="coerce")` on a single cell. -/
def parseTs : RawTimestamp → Option Nat
  | .ts t => some t
  | .malformed => none

/-- `pd.to_numeric(x, errors="coerce")` on a single cell. -/
def parseCell : RawCell → Option ℚ
  | .val q => some q
  | .malformed => none

/-- Sort key realising SQLite's `ORDER BY Datetime` over the stored text: for
well-formed `YYYY-MM-DD HH:MM:SS` text the lexicographic order coincides with
chronological order, so a valid timestamp keys to `t + 1`; where malformed
text lands in the text order depends on its bytes, and the model places it
below every valid timestamp (the claims about the loader quantify over the
valid rows only, so this choice is not load-bearing). -/
def dtKey : RawTimestamp → Nat
  | .ts t => t + 1
  | .malformed => 0

/-- The comparator of `ORDER BY Datetime DESC`: row `a` may precede row `b`
when `b`'s key is at most `a`'s. -/
def dtDescLe (a b : RawReading) : Bool :=
  decide (dtKey b.datetime ≤ dtKey a.datetime)

/-- The row cap of the loader's query (`LIMIT 10000`). -/
def LIMIT : Nat := 10000

/-- `pd.read_sql("SELECT * FROM power_consumption ORDER BY Datetime DESC
LIMIT 10000", conn)`: the store's rows sorted by `Datetime` descending,
truncated to the first 10000. -/
def load_data (store : List RawReading) : List RawReading :=
  (store.mergeSort dtDescLe).take LIMIT

/-- Truncation of a timestamp to its calendar-hour index, as performed by the
`"H"` bins of `resample`. -/
def hourOf (t : Nat) : Nat := t / 3600

/-- Truncation of a timestamp to its calendar-date index, as performed when a
`datetime64` column is compared against a `YYYY-MM-DD` string's day. -/
def dateOf (t : Nat) : Nat := t / 86400

/-- The rows that survive `set_index("Datetime")` followed by resampling:
rows whose `Datetime` coerced to `NaT` carry no index position, the rest
carry their parsed timestamp and their seven coerced cells. -/
def validRows (rows : List RawReading) : List (Nat × (Channel → Option ℚ)) :=
  rows.filterMap fun r =>
    (parseTs r.datetime).map fun t => (t, fun c => parseCell (r.cell c))

/-- The hour indices of the valid rows (with multiplicity). -/
def hoursOf (rows : List RawReading) : List Nat :=
  (validRows rows).map fun p => hourOf p.1

/-- The non-missing values of channel `c` among the valid rows of hour bin
`h`: exactly the values `resample("H")[...].mean()` averages for that cell. -/
def bucketVals (rows : List RawReading) (h : Nat) (c : Channel) : List ℚ :=
  (validRows rows).filterMap fun p => if hourOf p.1 = h then p.2 c else none

/-- The NaN-skipping mean of `.mean()`: the arithmetic mean of the collected
values, missing when no value was collected. -/
def meanOpt (l : List ℚ) : Option ℚ :=
  if l = [] then none else some (l.sum / l.length)

/-- The hourly output row of bin `h`: its `Datetime` is the hour start and
each channel holds the NaN-skipping mean of the bin's values. -/
def hourRec (rows : List RawReading) (h : Nat) : HourlyRecord :=
  { datetime := 3600 * h, cell := fun c => meanOpt (bucketVals rows h c) }

/-- `df.set_index("Datetime").resample("H")[numeric_cols].mean().reset_index()`:
one output row per hour bin from the first to the last hour of the valid
index, in ascending order; empty when no row has a valid timestamp. -/
def resample (rows : List RawReading) : List HourlyRecord :=
  match (hoursOf rows).min?, (hoursOf rows).max? with
  | some a, some b => (List.range' a (b - a + 1)).map (hourRec rows)
  | _, _ => []

/-- The whole cached pipeline of `load_data()`: query, coerce, resample. -/
def pipeline (store : List RawReading) : List HourlyRecord :=
  resample (load_data store)

/-- `df[(df["Datetime"] >= str(start_date)) & (df["Datetime"] <= str(end_date))]`:
comparing the `datetime64` column against the `YYYY-MM-DD` rendering of a
date compares against midnight of that date, so the kept rows are those with
`midnight(s) ≤ Datetime ≤ midnight(e)`. `s` and `e` are day indices. -/
def filtered_df (df : List HourlyRecord) (s e : Nat) : List HourlyRecord :=
  df.filter fun r => decide (86400 * s ≤ r.datetime) && decide (r.datetime ≤ 86400 * e)

/-- Connection lifecycle events of the loader. -/
inductive ConnEvent where
  | openConn
  | closeConn
deriving DecidableEq

/-- The fatal error class of the loader: store unreachable, table missing or
query malformed. -/
inductive StoreAccessError where
  | storeAccess
deriving DecidableEq

/-- The loader body with its connection lifecycle made explicit. The source
runs `conn = sqlite3.connect(...)`, then `df = pd.read_sql(query, conn)` —
which raises when the store cannot answer the query, modelled by `db = none`
— and only then `conn.close()`. The close is not inside any `try/finally` or
`with` block, so it executes only on the path where the query succeeded; on
the failure path the exception propagates with the connection still open.
Returns the produced table (or the propagated error) together with the list
of connection events that actually ran. -/
def load_data_run (db : Option (List RawReading)) :
    Except StoreAccessError (List HourlyRecord) × List ConnEvent :=
  match db with
  | none => (Except.error StoreAccessError.storeAccess, [ConnEvent.openConn])
  | some rows =>
      (Except.ok (resample (load_data rows)), [ConnEvent.openConn, ConnEvent.closeConn])

/-- A row of the dashboard's filtered view after the consumer may have added
the `Predicted` column. -/
structure PredRow where
  datetime : Nat
  cell : Channel → Option ℚ
  predicted : Option ℚ

/-- The dashboard state: the cached hourly table and the filtered working
copy. Boolean-mask indexing (`df[mask]`) returns a copy, so the view rows
are copies of the cached rows, initially without a `Predicted` column. -/
structure DashState where
  cached : List HourlyRecord
  view : List PredRow

/-- `filtered_df = df[(...) & (...)]`: build the dashboard state holding the
cached table and the freshly filtered copy. -/
def mkView (df : List HourlyRecord) (s e : Nat) : DashState :=
  { cached := df
    view := (filtered_df df s e).map fun r => ⟨r.datetime, r.cell, none⟩ }

/-- `filtered_df["Predicted"] = filtered_df["Global_active_power"] * 1.02`:
the in-place column assignment mutates only the filtered copy, writing into
each view row the product of its `Global_active_power` value with 51/50. -/
def setPredicted (st : DashState) : DashState :=
  { cached := st.cached
    view := st.view.map fun r =>
      ⟨r.datetime, r.cell, (r.cell Channel.Global_active_power).map fun q => q * (51 / 50)⟩ }

/-- Row `r` contributes to output record `rec` of the resampled table: `rec`
is an output row and its `Datetime` is the hour start of `r`'s parsed
timestamp (the bin `resample("H")` files `r` under). -/
def contributesTo (rows : List RawReading) (r : RawReading) (rec : HourlyRecord) : Prop :=
  rec ∈ resample rows ∧
    ∃ t, parseTs r.datetime = some t ∧ rec.datetime = 3600 * hourOf t

/-! ### Concrete inputs used by counterexamples and witnesses -/

/-- A reading whose seven channels all hold the value 1. -/
def allOnes : Channel → RawCell := fun _ => RawCell.val 1

/-- Two valid readings at 10:00 and 12:00 of the same day: the 11:00 hour of
the loaded window contains no row. -/
def exGap : List RawReading :=
  [⟨RawTimestamp.ts 36000, allOnes⟩, ⟨RawTimestamp.ts 43200, allOnes⟩]

/-- Channel assignment with a chosen `Global_active_power` cell, a chosen
`Voltage` cell, and the value 1 everywhere else. -/
def mkCells (g v : RawCell) : Channel → RawCell := fun c =>
  match c with
  | Channel.Global_active_power => g
  | Channel.Voltage => v
  | _ => RawCell.val 1

/-- Three valid readings inside the 10:00 hour with `Global_active_power`
10, 20, 30 and a malformed `Voltage` cell on every row. -/
def rows3 : List RawReading :=
  [⟨RawTimestamp.ts 36000, mkCells (RawCell.val 10) RawCell.malformed⟩,
   ⟨RawTimestamp.ts 37200, mkCells (RawCell.val 20) RawCell.malformed⟩,
   ⟨RawTimestamp.ts 38400, mkCells (RawCell.val 30) RawCell.malformed⟩]

/-- A valid reading at 10:00:00. -/
def rA : RawReading := ⟨RawTimestamp.ts 36000, allOnes⟩

/-- A valid reading at 10:30:00, in the same calendar hour as `rA`. -/
def rB : RawReading := ⟨RawTimestamp.ts 37800, allOnes⟩

/-- A two-row window whose rows share the 10:00 hour. -/
def rows2 : List RawReading := [rA, rB]

/-- A reading at 10:00:00 with `Global_active_power` 7 parseable but a
malformed `Voltage` cell. -/
def rBad : RawReading := ⟨RawTimestamp.ts 36000, mkCells (RawCell.val 7) RawCell.malformed⟩

/-- A reading with a malformed timestamp and valid channel values. -/
def rNoTs : RawReading := ⟨RawTimestamp.malformed, allOnes⟩

/-- A store of 10001 valid readings with pairwise distinct timestamps. -/
def bigStore : List RawReading :=
  (List.range (LIMIT + 1)).map fun i => ⟨RawTimestamp.ts i, allOnes⟩

/-! ### Shared lemmas about the embedded pipeline -/

theorem min?_perm_nat (l1 l2 : List Nat) (h : l1.Perm l2) : l1.min? = l2.min? := by
  cases h1 : l1.min? with
  | none =>
    rw [List.min?_eq_none_iff] at h1
    subst h1
    symm
    rw [List.min?_eq_none_iff]
    exact (List.Perm.nil_eq h).symm
  | some a =>
    rw [List.min?_eq_some_iff (fun a => le_refl a) (fun a b => min_choice a b)
      (fun a b c => le_min_iff)] at h1
    symm
    rw [List.min?_eq_some_iff (fun a => le_refl a) (fun a b => min_choice a b)
      (fun a b c => le_min_iff)]
    exact ⟨h.mem_iff.mp h1.1, fun b hb => h1.2 b (h.mem_iff.mpr hb)⟩

theorem max?_perm_nat (l1 l2 : List Nat) (h : l1.Perm l2) : l1.max? = l2.max? := by
  cases h1 : l1.max? with
  | none =>
    rw [List.max?_eq_none_iff] at h1
    subst h1
    symm
    rw [List.max?_eq_none_iff]
    exact (List.Perm.nil_eq h).symm
  | some a =>
    rw [List.max?_eq_some_iff (fun a => le_refl a) (fun a b => max_choice a b)
      (fun a b c => max_le_iff)] at h1
    symm
    rw [List.max?_eq_some_iff (fun a => le_refl a) (fun a b => max_choice a b)
      (fun a b c => max_le_iff)]
    exact ⟨h.mem_iff.mp h1.1, fun b hb => h1.2 b (h.mem_iff.mpr hb)⟩

theorem parseTs_eq_some (x : RawTimestamp) (t : Nat) (h : parseTs x = some t) :
    x = RawTimestamp.ts t := by
  cases x with
  | ts u => simp only [parseTs, Option.some.injEq] at h; rw [h]
  | malformed => simp [parseTs] at h

theorem resample_eq_range (rows : List RawReading) (a b : Nat)
    (ha : (hoursOf rows).min? = some a) (hb : (hoursOf rows).max? = some b) :
    resample rows = (List.range' a (b - a + 1)).map (hourRec rows) := by
  unfold resample
  rw [ha, hb]

theorem mem_validRows (rows : List RawReading) (r : RawReading) (t : Nat)
    (hm : r ∈ rows) (hp : parseTs r.datetime = some t) :
    (t, fun c => parseCell (r.cell c)) ∈ validRows rows := by
  apply List.mem_filterMap.mpr
  exact ⟨r, hm, by rw [hp]; rfl⟩

theorem mem_hoursOf (rows : List RawReading) (r : RawReading) (t : Nat)
    (hm : r ∈ rows) (hp : parseTs r.datetime = some t) :
    hourOf t ∈ hoursOf rows :=
  List.mem_map.mpr ⟨_, mem_validRows rows r t hm hp, rfl⟩

theorem exists_minmax (rows : List RawReading) (h : Nat) (hm : h ∈ hoursOf rows) :
    ∃ a b, (hoursOf rows).min? = some a ∧ (hoursOf rows).max? = some b ∧
      a ≤ h ∧ h ≤ b := by
  cases ha : (hoursOf rows).min? with
  | none =>
    rw [List.min?_eq_none_iff] at ha
    rw [ha] at hm
    cases hm
  | some a =>
    cases hb : (hoursOf rows).max? with
    | none =>
      rw [List.max?_eq_none_iff] at hb
      rw [hb] at hm
      cases hm
    | some b =>
      have ha2 := ha
      have hb2 := hb
      rw [List.min?_eq_some_iff (fun a => le_refl a) (fun a b => min_choice a b)
        (fun a b c => le_min_iff)] at ha2
      rw [List.max?_eq_some_iff (fun a => le_refl a) (fun a b => max_choice a b)
        (fun a b c => max_le_iff)] at hb2
      exact ⟨a, b, rfl, rfl, ha2.2 h hm, hb2.2 h hm⟩

theorem hourRec_mem_resample (rows : List RawReading) (a b h : Nat)
    (ha : (hoursOf rows).min? = some a) (hb : (hoursOf rows).max? = some b)
    (h1 : a ≤ h) (h2 : h ≤ b) :
    hourRec rows h ∈ resample rows := by
  rw [resample_eq_range rows a b ha hb]
  exact List.mem_map_of_mem _ (List.mem_range'_1.mpr ⟨h1, by omega⟩)

theorem hourRec_mem_of_mem_hoursOf (rows : List RawReading) (h : Nat)
    (hm : h ∈ hoursOf rows) :
    hourRec rows h ∈ resample rows := by
  obtain ⟨a, b, ha, hb, h1, h2⟩ := exists_minmax rows h hm
  exact hourRec_mem_resample rows a b h ha hb h1 h2

theorem bucketVals_eq_nil_of_not_mem (rows : List RawReading) (h : Nat) (c : Channel)
    (hnot : h ∉ hoursOf rows) :
    bucketVals rows h c = [] := by
  apply List.filterMap_eq_nil_iff.mpr
  intro p hp
  have hmem : hourOf p.1 ∈ hoursOf rows := List.mem_map.mpr ⟨p, hp, rfl⟩
  have hne : hourOf p.1 ≠ h := fun e => hnot (e ▸ hmem)
  simp [hne]

theorem mem_resample_elim (rows : List RawReading) (rec : HourlyRecord)
    (hrec : rec ∈ resample rows) :
    ∃ h, rec = hourRec rows h := by
  unfold resample at hrec
  cases hmin : (hoursOf rows).min? with
  | none =>
    rw [hmin] at hrec
    cases hrec
  | some a =>
    cases hmax : (hoursOf rows).max? with
    | none =>
      rw [hmin, hmax] at hrec
      cases hrec
    | some b =>
      rw [hmin, hmax] at hrec
      obtain ⟨h, _, hh⟩ := List.mem_map.mp hrec
      exact ⟨h, hh.symm⟩

theorem resample_pairwise_lt (rows : List RawReading) :
    List.Pairwise (fun a b => a.datetime < b.datetime) (resample rows) := by
  unfold resample
  cases (hoursOf rows).min? with
  | none => exact List.Pairwise.nil
  | some a =>
    cases (hoursOf rows).max? with
    | none => exact List.Pairwise.nil
    | some b =>
      refine List.Pairwise.map _ (fun x y hxy => ?_) (List.pairwise_lt_range' a (b - a + 1))
      show 3600 * x < 3600 * y
      omega

theorem meanOpt_perm (l1 l2 : List ℚ) (h : l1.Perm l2) : meanOpt l1 = meanOpt l2 := by
  unfold meanOpt
  rcases eq_or_ne l1 [] with rfl | hne
  · rw [(List.Perm.nil_eq h).symm]
  · have hne2 : l2 ≠ [] := by
      intro e
      rw [e] at h
      exact hne (List.Perm.nil_eq h.symm).symm
    rw [if_neg hne, if_neg hne2, h.sum_eq, h.length_eq]

theorem validRows_perm (l1 l2 : List RawReading) (h : l1.Perm l2) :
    (validRows l1).Perm (validRows l2) :=
  List.Perm.filterMap _ h

/-! ### C1 — hour buckets of the resampler -/

/-- C1 counterexample: on a window with rows only in the 10:00 and 12:00
hours, `resample` emits three records, not two — the empty 11:00 hour is
synthesized as an output row, contradicting the claim that hours with zero
rows are not synthesized. -/
theorem c1_gap_hour_synthesized :
    (resample exGap).length = 3 ∧
    (hoursOf exGap).dedup = [10, 12] ∧
    ∃ rec ∈ resample exGap, rec.datetime = 3600 * 11 := by
  refine ⟨by decide, by decide, ?_⟩
  have hmem : hourRec exGap 11 ∈ resample exGap :=
    hourRec_mem_resample exGap 10 12 11 (by decide) (by decide) (by decide) (by decide)
  exact ⟨hourRec exGap 11, hmem, rfl⟩

/-- C1 (amended): the resampler emits exactly one HourlyRecord per calendar
hour in the contiguous closed range from the earliest to the latest hour
containing a valid-timestamp row, sorted ascending; an hour in that range
containing zero rows IS synthesized, with every channel missing; with no
valid row at all, the output is empty. -/
theorem c1_resample_hours (rows : List RawReading) (a b : Nat)
    (ha : (hoursOf rows).min? = some a) (hb : (hoursOf rows).max? = some b) :
    ((resample rows).map (fun rec => rec.datetime)
        = (List.range' a (b - a + 1)).map (fun h => 3600 * h)) ∧
    (∀ h, a ≤ h → h ≤ b → h ∉ hoursOf rows →
      ∃ rec ∈ resample rows, rec.datetime = 3600 * h ∧ ∀ c, rec.cell c = none) := by
  constructor
  · rw [resample_eq_range rows a b ha hb, List.map_map]
    rfl
  · intro h h1 h2 hnot
    refine ⟨hourRec rows h, hourRec_mem_resample rows a b h ha hb h1 h2, rfl, fun c => ?_⟩
    show meanOpt (bucketVals rows h c) = none
    rw [bucketVals_eq_nil_of_not_mem rows h c hnot, meanOpt, if_pos rfl]

/-- C1 witness: the amended statement applied to the concrete two-row window
with an empty hour between its rows. -/
theorem c1_resample_hours_witness :
    (hoursOf exGap).min? = some 10 ∧
    ∃ rec ∈ resample exGap, rec.datetime = 3600 * 11 ∧ ∀ c, rec.cell c = none :=
  ⟨by decide,
    (c1_resample_hours exGap 10 12 (by decide) (by decide)).2 11
      (by decide) (by decide) (by decide)⟩

/-! ### C2 — date-range filtering -/

/-- C2 counterexample: with start day 0 and end day 1, the record at 01:00
of day 1 (timestamp 90000) has its calendar date inside the inclusive range,
yet the filter drops it, because the end bound compares against midnight of
day 1 (86400). -/
theorem c2_end_day_record_dropped :
    (0 ≤ dateOf 90000 ∧ dateOf 90000 ≤ 1) ∧
    (filtered_df [⟨90000, fun _ => none⟩] 0 1).length = 0 := by
  constructor
  · constructor
    · decide
    · decide
  · rfl

/-- C2 (amended): the filter keeps a record iff its timestamp lies between
midnight of the start date and midnight of the end date inclusive;
equivalently, the start side is inclusive by calendar date, but of the end
date `e` only the single midnight instant survives — a record anywhere later
on day `e` is dropped. -/
theorem c2_filter_bounds (df : List HourlyRecord) (r : HourlyRecord) (s e : Nat) :
    r ∈ filtered_df df s e ↔
      r ∈ df ∧ s ≤ dateOf r.datetime ∧
        (dateOf r.datetime < e ∨ r.datetime = 86400 * e) := by
  unfold filtered_df dateOf
  rw [List.mem_filter]
  simp only [Bool.and_eq_true, decide_eq_true_eq]
  refine and_congr_right fun _ => ?_
  omega

/-! ### C3 — connection lifecycle of the loader -/

/-- C3 counterexample: when the query fails, the loader's trace contains the
connect event but no close event — the exception propagates with the
connection still open, contradicting release on every exit path. -/
theorem c3_no_close_on_failure :
    (load_data_run none).2 = [ConnEvent.openConn] ∧
    ConnEvent.closeConn ∉ (load_data_run none).2 ∧
    (load_data_run none).1 = Except.error StoreAccessError.storeAccess := by
  refine ⟨rfl, ?_, rfl⟩
  decide

/-- C3 (amended): the loader opens the connection on every invocation, and
closes it exactly on the successful path: the connection is closed before
return iff the query succeeded; on query failure the error propagates and no
close is executed. -/
theorem c3_close_iff_success (db : Option (List RawReading)) :
    ConnEvent.openConn ∈ (load_data_run db).2 ∧
    ((load_data_run db).1.isOk = true ↔ ConnEvent.closeConn ∈ (load_data_run db).2) := by
  cases db with
  | none => simp [load_data_run, Except.isOk, Except.toBool]
  | some rows => simp [load_data_run, Except.isOk, Except.toBool]

/-! ### C4 — grouping by calendar-hour truncation -/

/-- C4: two input rows with valid timestamps contribute to the same
HourlyRecord iff their timestamps truncate to the same calendar-hour start,
and every record a row contributes to carries that hour boundary as its
`Datetime` (a multiple of 3600, i.e. minutes and seconds zero). -/
theorem c4_same_hour_same_record (rows : List RawReading) (r1 r2 : RawReading)
    (t1 t2 : Nat) (m1 : r1 ∈ rows) (_m2 : r2 ∈ rows)
    (p1 : parseTs r1.datetime = some t1) (p2 : parseTs r2.datetime = some t2) :
    ((∃ rec, contributesTo rows r1 rec ∧ contributesTo rows r2 rec) ↔
      hourOf t1 = hourOf t2) ∧
    (∀ rec, contributesTo rows r1 rec →
      rec.datetime = 3600 * hourOf t1 ∧ rec.datetime % 3600 = 0) := by
  have hdt1 : ∀ rec, contributesTo rows r1 rec → rec.datetime = 3600 * hourOf t1 := by
    rintro rec ⟨_, t, hp, hd⟩
    rw [p1] at hp
    injection hp with h
    subst h
    exact hd
  have hdt2 : ∀ rec, contributesTo rows r2 rec → rec.datetime = 3600 * hourOf t2 := by
    rintro rec ⟨_, t, hp, hd⟩
    rw [p2] at hp
    injection hp with h
    subst h
    exact hd
  constructor
  · constructor
    · rintro ⟨rec, hc1, hc2⟩
      have e1 := hdt1 rec hc1
      have e2 := hdt2 rec hc2
      omega
    · intro heq
      have hmem : hourRec rows (hourOf t1) ∈ resample rows :=
        hourRec_mem_of_mem_hoursOf rows (hourOf t1) (mem_hoursOf rows r1 t1 m1 p1)
      refine ⟨hourRec rows (hourOf t1), ⟨hmem, t1, p1, rfl⟩, hmem, t2, p2, ?_⟩
      show 3600 * hourOf t1 = 3600 * hourOf t2
      rw [heq]
  · intro rec hc
    refine ⟨hdt1 rec hc, ?_⟩
    rw [hdt1 rec hc]
    exact Nat.mul_mod_right 3600 _

/-- C4 witness: the rows at 10:00:00 and 10:30:00 of `rows2` contribute to
one common hourly record. -/
theorem c4_same_hour_same_record_witness :
    ∃ rec, contributesTo rows2 rA rec ∧ contributesTo rows2 rB rec :=
  (c4_same_hour_same_record rows2 rA rB 36000 37800
      (List.mem_cons_self rA [rB])
      (List.mem_cons_of_mem rA (List.mem_cons_self rB []))
      rfl rfl).1.mpr (by decide)

/-! ### C5 — per-bucket means -/

/-- C5: for every output record and channel, the cell equals the unweighted
arithmetic mean of the non-missing values of that channel in the record's
hour bucket, and is missing (not zero) when the bucket holds no value for
the channel. -/
theorem c5_cell_is_mean (rows : List RawReading) (rec : HourlyRecord) (c : Channel)
    (hrec : rec ∈ resample rows) :
    (bucketVals rows (rec.datetime / 3600) c = [] → rec.cell c = none) ∧
    (bucketVals rows (rec.datetime / 3600) c ≠ [] →
      rec.cell c = some ((bucketVals rows (rec.datetime / 3600) c).sum /
        (bucketVals rows (rec.datetime / 3600) c).length)) := by
  obtain ⟨h, rfl⟩ := mem_resample_elim rows rec hrec
  have hdiv : (hourRec rows h).datetime / 3600 = h := by
    show 3600 * h / 3600 = h
    omega
  rw [hdiv]
  constructor
  · intro he
    show meanOpt (bucketVals rows h c) = none
    rw [he, meanOpt, if_pos rfl]
  · intro hne
    show meanOpt (bucketVals rows h c) = _
    rw [meanOpt, if_neg hne]

/-- C5 witness: the 10:00 bucket of `rows3` holds `Global_active_power`
values [10, 20, 30] with mean exactly 20, while its `Voltage` channel,
malformed on every row, comes out missing rather than zero. -/
theorem c5_cell_is_mean_witness :
    (hourRec rows3 10).cell Channel.Global_active_power = some 20 ∧
    (hourRec rows3 10).cell Channel.Voltage = none := by
  have hmem : hourRec rows3 10 ∈ resample rows3 :=
    hourRec_mem_resample rows3 10 10 10 (by decide) (by decide) (by decide) (by decide)
  constructor
  · have h := (c5_cell_is_mean rows3 (hourRec rows3 10) Channel.Global_active_power hmem).2
      (by decide)
    rw [h]
    have hbv : bucketVals rows3 ((hourRec rows3 10).datetime / 3600)
        Channel.Global_active_power = [10, 20, 30] := by decide
    rw [hbv]
    norm_num [List.sum_cons, List.sum_nil]
  · exact (c5_cell_is_mean rows3 (hourRec rows3 10) Channel.Voltage hmem).1 (by decide)

/-! ### C6 — fault isolation of malformed cells -/

/-- C6: a parse failure is confined to its own cell. A row whose timestamp
fails to parse changes nothing in the resampled output; a row with a valid
timestamp contributes each of its parseable channel values to its hour's
bucket for that channel, while a channel whose cell fails to parse receives
nothing from that row in any bucket. Processing never aborts: the embedded
pipeline is total. -/
theorem c6_cell_isolation (r : RawReading) (rows : List RawReading) (t : Nat) :
    (parseTs r.datetime = none → resample (r :: rows) = resample rows) ∧
    (parseTs r.datetime = some t → ∀ c q, parseCell (r.cell c) = some q →
      bucketVals (r :: rows) (hourOf t) c = q :: bucketVals rows (hourOf t) c) ∧
    (parseTs r.datetime = some t → ∀ c, parseCell (r.cell c) = none →
      ∀ h, bucketVals (r :: rows) h c = bucketVals rows h c) := by
  refine ⟨?_, ?_, ?_⟩
  · intro hnone
    have hv : validRows (r :: rows) = validRows rows := by
      unfold validRows
      rw [List.filterMap_cons, hnone]
      rfl
    have hh : hoursOf (r :: rows) = hoursOf rows := by
      unfold hoursOf
      rw [hv]
    have hb : ∀ h c, bucketVals (r :: rows) h c = bucketVals rows h c := by
      intro h c
      unfold bucketVals
      rw [hv]
    have hrc : hourRec (r :: rows) = hourRec rows := by
      funext h
      unfold hourRec
      exact congrArg (HourlyRecord.mk (3600 * h))
        (funext fun c => congrArg meanOpt (hb h c))
    unfold resample
    rw [hh, hrc]
  · intro hpt c q hq
    have hv : validRows (r :: rows)
        = (t, fun c => parseCell (r.cell c)) :: validRows rows := by
      unfold validRows
      rw [List.filterMap_cons, hpt]
      rfl
    unfold bucketVals
    rw [hv, List.filterMap_cons]
    simp [hq]
  · intro hpt c hq h
    have hv : validRows (r :: rows)
        = (t, fun c => parseCell (r.cell c)) :: validRows rows := by
      unfold validRows
      rw [List.filterMap_cons, hpt]
      rfl
    unfold bucketVals
    rw [hv, List.filterMap_cons]
    by_cases hcase : hourOf t = h
    · simp [hcase, hq]
    · simp [hcase]

/-- C6 witness: prepending `rBad` (valid timestamp, `Global_active_power` 7,
malformed `Voltage`) to `rows3` adds 7 to the 10:00 bucket of
`Global_active_power` and leaves the `Voltage` bucket unchanged, while
prepending the malformed-timestamp row `rNoTs` leaves the whole resampled
output unchanged. -/
theorem c6_cell_isolation_witness :
    bucketVals (rBad :: rows3) 10 Channel.Global_active_power
        = 7 :: bucketVals rows3 10 Channel.Global_active_power ∧
    bucketVals (rBad :: rows3) 10 Channel.Voltage = bucketVals rows3 10 Channel.Voltage ∧
    resample (rNoTs :: rows3) = resample rows3 := by
  refine ⟨?_, ?_, ?_⟩
  · exact (c6_cell_isolation rBad rows3 36000).2.1 rfl Channel.Global_active_power 7 rfl
  · exact (c6_cell_isolation rBad rows3 36000).2.2 rfl Channel.Voltage rfl 10
  · exact (c6_cell_isolation rNoTs rows3 0).1 rfl

/-! ### C7 — output ordering -/

/-- C7: the pipeline output — resampling the rows the loader delivered in
descending `Datetime` order — is strictly ascending by `Datetime`, so in
particular no two output records share an hour. -/
theorem c7_output_strictly_ascending (store : List RawReading) :
    List.Pairwise (fun a b => a.datetime < b.datetime) (pipeline store) :=
  resample_pairwise_lt (load_data store)

/-! ### C8 — the 10000-row cap of the loader -/

/-- C8: a store holding more than 10000 readings loads to exactly 10000
rows, and they dominate the invisible remainder: the loaded rows together
with the dropped rows are exactly the store's rows, and every dropped row's
parsed timestamp is at most every loaded row's parsed timestamp. -/
theorem c8_row_cap (store : List RawReading) (hlen : LIMIT < store.length) :
    (load_data store).length = LIMIT ∧
    ∃ dropped : List RawReading,
      (load_data store ++ dropped).Perm store ∧
      ∀ a ∈ load_data store, ∀ b ∈ dropped, ∀ ta tb,
        parseTs a.datetime = some ta → parseTs b.datetime = some tb → tb ≤ ta := by
  have hperm : (store.mergeSort dtDescLe).Perm store := List.mergeSort_perm store dtDescLe
  have hlen2 : LIMIT ≤ (store.mergeSort dtDescLe).length := by
    rw [hperm.length_eq]
    omega
  have htrans : ∀ a b c : RawReading, dtDescLe a b = true → dtDescLe b c = true →
      dtDescLe a c = true := by
    intro a b c hab hbc
    simp only [dtDescLe, decide_eq_true_eq] at hab hbc ⊢
    omega
  have htotal : ∀ a b : RawReading, (dtDescLe a b || dtDescLe b a) = true := by
    intro a b
    simp only [dtDescLe, Bool.or_eq_true, decide_eq_true_eq]
    omega
  have hsort := List.sorted_mergeSort htrans htotal store
  have hsplit : List.Pairwise (fun a b => dtDescLe a b = true)
      ((store.mergeSort dtDescLe).take LIMIT ++ (store.mergeSort dtDescLe).drop LIMIT) := by
    rw [List.take_append_drop]
    exact hsort
  have hdom := (List.pairwise_append.mp hsplit).2.2
  refine ⟨?_, (store.mergeSort dtDescLe).drop LIMIT, ?_, ?_⟩
  · unfold load_data
    rw [List.length_take]
    omega
  · unfold load_data
    rw [List.take_append_drop]
    exact hperm
  · intro a ha b hb ta tb hta htb
    have hk := hdom a ha b hb
    simp only [dtDescLe, decide_eq_true_eq] at hk
    rw [parseTs_eq_some a.datetime ta hta, parseTs_eq_some b.datetime tb htb] at hk
    simp only [dtKey] at hk
    omega

/-- C8 witness: a store of 10001 readings loads to exactly 10000 rows. -/
theorem c8_row_cap_witness :
    LIMIT < bigStore.length ∧ (load_data bigStore).length = LIMIT := by
  have hlen : LIMIT < bigStore.length := by
    unfold bigStore
    rw [List.length_map, List.length_range]
    omega
  exact ⟨hlen, (c8_row_cap bigStore hlen).1⟩

/-! ### C9 — determinism of the resampling stage -/

/-- C9: the resampler is a pure function of the multiset of its input rows:
permuting the rows — in particular re-running it on the identical, unchanged
row set — produces an identical output table, row for row and value for
value; there is no dependence on randomness or processing order beyond the
grouping semantics. -/
theorem c9_perm_invariant (l1 l2 : List RawReading) (h : l1.Perm l2) :
    resample l1 = resample l2 := by
  have hv : (validRows l1).Perm (validRows l2) := validRows_perm l1 l2 h
  have hh : (hoursOf l1).Perm (hoursOf l2) := hv.map _
  have hmin : (hoursOf l1).min? = (hoursOf l2).min? := min?_perm_nat _ _ hh
  have hmax : (hoursOf l1).max? = (hoursOf l2).max? := max?_perm_nat _ _ hh
  have hrc : hourRec l1 = hourRec l2 := by
    funext hr
    unfold hourRec
    refine congrArg (HourlyRecord.mk (3600 * hr)) (funext fun c => ?_)
    exact meanOpt_perm _ _ (hv.filterMap _)
  unfold resample
  rw [hmin, hmax, hrc]

/-- C9 witness: swapping the two rows of `rows2` leaves the resampled output
unchanged. -/
theorem c9_perm_invariant_witness : resample [rA, rB] = resample [rB, rA] :=
  c9_perm_invariant [rA, rB] [rB, rA] (List.Perm.swap rB rA [])

/-! ### C10 — the Predicted column does not touch the cached table -/

/-- C10: appending the derived `Predicted` column to the date-filtered copy
leaves the cached hourly table unchanged — the cached component still holds
exactly its original records — and every row of the mutated view still
carries its source record's original `Datetime` and channel values. -/
theorem c10_cached_unchanged (cached : List HourlyRecord) (s e : Nat) :
    (setPredicted (mkView cached s e)).cached = cached ∧
    ∀ r ∈ (setPredicted (mkView cached s e)).view,
      ∃ r0 ∈ cached, r.datetime = r0.datetime ∧ r.cell = r0.cell := by
  refine ⟨rfl, ?_⟩
  intro r hr
  simp only [setPredicted, mkView, List.map_map, List.mem_map] at hr
  obtain ⟨r0, hr0, rfl⟩ := hr
  exact ⟨r0, (List.mem_filter.mp hr0).1, rfl, rfl⟩

end PowerHouse
